import Mathlib

/-!
Verification of the `catch-async` attempt orchestrator.

The repository ships a single core routine, `catchAsync(asyncFn, options)`,
which runs an asynchronous operation under a retry/timeout envelope,
dispatches lifecycle hooks (`onSuccess`, `onError`, `onFinally`, `logger`),
transforms errors, and returns a structured result
`{ result, error, attempts, retried }` (or rethrows).

We embed the orchestrator shallowly: an operation is modelled as a function
from the attempt number (counted from 1) to its behaviour on that attempt
(what it settles to and how long it takes), asynchronous timing is reduced
to the duration field raced against the configured timeout budget, and hook
invocations are recorded in an explicit event trace instead of running
side effects.  JS thrown values are modelled by `ErrVal` (an `Error`
instance with a message, or some other thrown value).
-/

namespace CatchAsync

/-- A JS value thrown/rejected by an operation: either a genuine `Error`
instance carrying a message, or some other (non-`Error`) value. -/
inductive ErrVal where
  | error (message : String)
  | other (description : String)
deriving Repr, DecidableEq

/-- `instanceof Error` for a modelled thrown value. -/
def ErrVal.isError : ErrVal → Bool
  | .error _ => true
  | .other _ => false

/-- The `message` property (empty for non-`Error` values). -/
def ErrVal.message : ErrVal → String
  | .error m => m
  | .other _ => ""

/-- Behaviour of one execution of the wrapped operation: what it settles to
and (for the timeout race) how many milliseconds it takes to settle. -/
structure OpBehavior (T : Type) where
  outcome : Except ErrVal T
  duration : Nat
deriving Repr

/-- An operation, modelled extensionally: its behaviour on each attempt
number (attempts are counted from 1). -/
def Operation (T : Type) : Type := Nat → OpBehavior T

/-- Modelled from the spec: the configuration record of `catchAsync`
(src/index.ts is not in the corpus; fields and defaults follow §3 of the
design and the README option table).  Hooks that are mere side effects are
modelled by presence flags; their invocations are recorded in the trace. -/
structure CatchAsyncOptions (T : Type) where
  hasOnSuccess : Bool
  hasOnError : Bool
  hasOnFinally : Bool
  hasLogger : Bool
  rethrow : Bool
  defaultValue : Option T
  retryCount : Nat
  retryDelayMs : Nat
  timeoutMs : Option Nat
  transformError : Option (ErrVal → ErrVal)
  shouldRetry : Option (ErrVal → Nat → Bool)

/-- The all-defaults configuration (`options` omitted): no hooks, no
rethrow, no default value, `retryCount = 0`, no delay, no timeout, no
error transformation, default retry predicate. -/
def defaultOptions (T : Type) : CatchAsyncOptions T :=
  { hasOnSuccess := false
    hasOnError := false
    hasOnFinally := false
    hasLogger := false
    rethrow := false
    defaultValue := none
    retryCount := 0
    retryDelayMs := 0
    timeoutMs := none
    transformError := none
    shouldRetry := none }

/-- The structured result `{ result, error, attempts, retried }`;
`none` models JS `undefined`. -/
structure CatchAsyncResult (T : Type) where
  result : Option T
  error : Option ErrVal
  attempts : Nat
  retried : Bool
deriving Repr, DecidableEq

/-- How an invocation of `catchAsync` settles: it resolves with a
structured result, or (with `rethrow`) rejects with an error. -/
inductive COutcome (T : Type) where
  | resolved (r : CatchAsyncResult T)
  | thrown (e : ErrVal)
deriving Repr, DecidableEq

/-- One entry of the recorded event trace: an operation invocation (with
its attempt number) or a hook invocation (with its arguments). -/
inductive Event (T : Type) where
  | opCall (attempt : Nat)
  | onSuccessEv (value : T)
  | loggerEv (e : ErrVal) (attempt : Nat)
  | onErrorEv (e : ErrVal)
  | onFinallyEv
deriving Repr, DecidableEq

/-- Modelled from the spec: the synthesized timeout failure (§4.1 step b:
"produce a timeout error whose message clearly identifies a timeout
condition (must match a recognizable pattern, e.g. contain `timed out`)").
The exact wording is not observable in the corpus; the test suite only
requires the message to match `/timed out/` and the value to be an
`Error` instance. -/
def timeoutError : ErrVal := .error "Operation timed out"

/-- Modelled from the spec (§4.1 step b): the outcome of attempt `k` after
racing the operation against the `timeoutMs` timer; if the timer elapses
before the operation settles, the attempt fails with `timeoutError`. -/
def attemptOutcome (cfg : CatchAsyncOptions T) (op : Operation T) (k : Nat) :
    Except ErrVal T :=
  match cfg.timeoutMs with
  | some t => if t < (op k).duration then .error timeoutError else (op k).outcome
  | none => (op k).outcome

/-- `transformError` applied to a caught error (identity when absent). -/
def applyTransform (cfg : CatchAsyncOptions T) (e : ErrVal) : ErrVal :=
  match cfg.transformError with
  | some f => f e
  | none => e

/-- The effective retry predicate: the custom `shouldRetry` when supplied,
otherwise the default `attemptNumber <= retryCount`. -/
def retryDecision (cfg : CatchAsyncOptions T) (e : ErrVal) (k : Nat) : Bool :=
  match cfg.shouldRetry with
  | some p => p e k
  | none => k ≤ cfg.retryCount

/-- Events recorded by one failed attempt `k` whose transformed error is
`e`: the operation call, then `logger(e, k)` if present, then
`onError(e)` if present (§4.1 step d). -/
def failEvents (cfg : CatchAsyncOptions T) (e : ErrVal) (k : Nat) :
    List (Event T) :=
  Event.opCall k ::
    ((if cfg.hasLogger then [Event.loggerEv e k] else []) ++
      (if cfg.hasOnError then [Event.onErrorEv e] else []))

/-- Events recorded by the successful terminal attempt `k` resolving `v`:
the operation call, then `onSuccess(v)` if present, then `onFinally()`
if present (§4.1 step c). -/
def successEvents (cfg : CatchAsyncOptions T) (v : T) (k : Nat) :
    List (Event T) :=
  Event.opCall k ::
    ((if cfg.hasOnSuccess then [Event.onSuccessEv v] else []) ++
      (if cfg.hasOnFinally then [Event.onFinallyEv] else []))

/-- The trailing `onFinally()` invocation after the loop exits via failure
(§4.1 step 3). -/
def finallyTail (cfg : CatchAsyncOptions T) : List (Event T) :=
  if cfg.hasOnFinally then [Event.onFinallyEv] else []

/-- How the invocation settles after the loop exits via failure at attempt
`k` with last transformed error `e` (§4.1 steps 4–5): rethrow `e`, or
resolve with `{ result: defaultValue, error: e, attempts: k,
retried: k > 1 }`. -/
def failExit (cfg : CatchAsyncOptions T) (e : ErrVal) (k : Nat) : COutcome T :=
  if cfg.rethrow then .thrown e
  else .resolved ⟨cfg.defaultValue, some e, k, decide (1 < k)⟩

/-- Modelled from the spec: the attempt loop of the orchestrator
(§4.1 steps 2–5; src/index.ts is not in the corpus).  `k` is the current
attempt number (counted from 1) and `fuel` the number of retries still
permitted by the attempt-count ceiling, so `fuel = retryCount + 1 - k`
throughout a run and `fuel = 0` exactly when `k` has reached
`retryCount + 1`.  Each iteration races the operation against the timeout,
then on success records the success hooks and resolves; on failure it
transforms the error, records `logger`/`onError`, consults the retry
predicate, and either loops or exits through `finallyTail`/`failExit`.
The inter-retry delay (`retryDelayMs`) only consumes wall-clock time and
leaves no observable event. -/
def runLoop (cfg : CatchAsyncOptions T) (op : Operation T) :
    Nat → Nat → List (Event T) × COutcome T
  | k, 0 =>
    match attemptOutcome cfg op k with
    | .ok v =>
        (successEvents cfg v k,
          .resolved ⟨some v, none, k, decide (1 < k)⟩)
    | .error raw =>
        let e := applyTransform cfg raw
        (failEvents cfg e k ++ finallyTail cfg, failExit cfg e k)
  | k, fuel + 1 =>
    match attemptOutcome cfg op k with
    | .ok v =>
        (successEvents cfg v k,
          .resolved ⟨some v, none, k, decide (1 < k)⟩)
    | .error raw =>
        let e := applyTransform cfg raw
        if retryDecision cfg e k then
          let rest := runLoop cfg op (k + 1) fuel
          (failEvents cfg e k ++ rest.1, rest.2)
        else
          (failEvents cfg e k ++ finallyTail cfg, failExit cfg e k)

/-- Modelled from the spec: the exported `catchAsync(asyncFn, options)`
orchestrator (§4.1; src/index.ts is not in the corpus).  It starts the
attempt loop at attempt number 1 with `retryCount` retries available and
returns the recorded event trace together with the settling outcome. -/
def catchAsync (op : Operation T) (cfg : CatchAsyncOptions T) :
    List (Event T) × COutcome T :=
  runLoop cfg op 1 cfg.retryCount

/-- Does a trace entry record an operation invocation? -/
def Event.isOpCall : Event T → Bool
  | .opCall _ => true
  | _ => false

/-- Does a trace entry record an `onSuccess` invocation? -/
def Event.isOnSuccess : Event T → Bool
  | .onSuccessEv _ => true
  | _ => false

/-- Does a trace entry record a `logger` invocation? -/
def Event.isLoggerCall : Event T → Bool
  | .loggerEv _ _ => true
  | _ => false

/-- Does a trace entry record an `onError` invocation? -/
def Event.isOnError : Event T → Bool
  | .onErrorEv _ => true
  | _ => false

/-- Does a trace entry record an `onFinally` invocation? -/
def Event.isOnFinally : Event T → Bool
  | .onFinallyEv => true
  | _ => false

/-- The trace left by a block of `n` consecutive failed attempts starting
at attempt `k`, where `errs j` is the transformed error of attempt `j`. -/
def failRunTrace (cfg : CatchAsyncOptions T) (errs : Nat → ErrVal) (k : Nat) :
    Nat → List (Event T)
  | 0 => []
  | n + 1 => failEvents cfg (errs k) k ++ failRunTrace cfg errs (k + 1) n

/-- Concrete operation failing on attempt 1 and succeeding afterwards,
mirroring the retried-then-successful operations of the test suite. -/
def wOp1 : Operation String := fun k =>
  if k = 1 then ⟨.error (.error "first"), 0⟩ else ⟨.ok "ok", 0⟩

/-- Configuration with two retries and an `onSuccess` hook. -/
def wCfg1 : CatchAsyncOptions String :=
  { defaultOptions String with retryCount := 2, hasOnSuccess := true }

/-- Concrete operation rejecting with `Error("raw")` on every attempt. -/
def wOpRaw : Operation String := fun _ => ⟨.error (.error "raw"), 0⟩

/-- The error transformation of the test suite: prepend `wrapped:` to the
message of an `Error` instance, pass other values through. -/
def wTransform : ErrVal → ErrVal := fun e =>
  match e with
  | .error m => .error ("wrapped:" ++ m)
  | o => o

/-- Configuration of the `transforms errors and logs attempts` test:
one retry, a logger, an `onError` hook, `transformError`, and a default
value. -/
def wCfg2 : CatchAsyncOptions String :=
  { defaultOptions String with
      retryCount := 1
      hasLogger := true
      hasOnError := true
      transformError := some wTransform
      defaultValue := some "x" }

/-- Concrete operation resolving `"v"` immediately on every attempt. -/
def wOpOk : Operation String := fun _ => ⟨.ok "v", 0⟩

/-- Configuration of the lifecycle-hooks test: all three hooks present. -/
def wCfg4 : CatchAsyncOptions String :=
  { defaultOptions String with
      hasOnSuccess := true
      hasOnError := true
      hasOnFinally := true }

/-- Concrete operation of the custom-predicate test: rejects with
`Error("first")`, then `Error("second")`, then resolves. -/
def wOpSeq : Operation String := fun k =>
  if k = 1 then ⟨.error (.error "first"), 0⟩
  else if k = 2 then ⟨.error (.error "second"), 0⟩
  else ⟨.ok "success", 0⟩

/-- The custom retry predicate of the test suite: refuse to continue after
the `second` error, otherwise allow while `attempts <= 2`. -/
def wPred : ErrVal → Nat → Bool := fun e k =>
  if e.message = "second" then false else decide (k ≤ 2)

/-- Configuration of the custom-predicate test: `retryCount: 5` with the
custom `shouldRetry`. -/
def wCfg6 : CatchAsyncOptions String :=
  { defaultOptions String with retryCount := 5, shouldRetry := some wPred }

/-- Concrete operation of the timeout test: resolves `"slow"` after 30ms
on every attempt. -/
def wOpSlow : Operation String := fun _ => ⟨.ok "slow", 30⟩

/-- Configuration of the timeout test: `timeoutMs: 5`, everything else
default. -/
def wCfg7 : CatchAsyncOptions String :=
  { defaultOptions String with timeoutMs := some 5 }

/-- Configuration of the swallowed-error test: a default value and an
`onError` hook. -/
def wCfg8 : CatchAsyncOptions String :=
  { defaultOptions String with
      defaultValue := some "fallback"
      hasOnError := true }

/-- Concrete operation rejecting `Error("first")` on attempt 1 and
`Error("second")` on every later attempt. -/
def wOpFirstSecond : Operation String := fun k =>
  if k = 1 then ⟨.error (.error "first"), 0⟩
  else ⟨.error (.error "second"), 0⟩

/-- The raw errors of `wOpFirstSecond`, attempt by attempt. -/
def werrs9 : Nat → ErrVal := fun j =>
  if j = 1 then ErrVal.error "first" else ErrVal.error "second"

/-- Configuration combining `rethrow: true` with `retryCount: 5` and the
custom retry predicate, so the rethrow path is exercised together with a
predicate-forced early stop. -/
def wCfg9 : CatchAsyncOptions String :=
  { defaultOptions String with
      rethrow := true
      retryCount := 5
      shouldRetry := some wPred }

variable {T : Type}

theorem applyTransform_none (cfg : CatchAsyncOptions T)
    (h : cfg.transformError = none) (e : ErrVal) :
    applyTransform cfg e = e := by
  simp [applyTransform, h]

theorem retryDecision_none (cfg : CatchAsyncOptions T)
    (h : cfg.shouldRetry = none) (e : ErrVal) (k : Nat) :
    retryDecision cfg e k = decide (k ≤ cfg.retryCount) := by
  simp [retryDecision, h]

theorem runLoop_succ_eq (cfg : CatchAsyncOptions T) (op : Operation T)
    (k fuel : Nat) (v : T) (h : attemptOutcome cfg op k = .ok v) :
    runLoop cfg op k fuel =
      (successEvents cfg v k, .resolved ⟨some v, none, k, decide (1 < k)⟩) := by
  cases fuel with
  | zero => rw [runLoop, h]
  | succ f => rw [runLoop, h]

theorem runLoop_retry_eq (cfg : CatchAsyncOptions T) (op : Operation T)
    (k f : Nat) (raw : ErrVal) (h : attemptOutcome cfg op k = .error raw)
    (hdec : retryDecision cfg (applyTransform cfg raw) k = true) :
    runLoop cfg op k (f + 1) =
      (failEvents cfg (applyTransform cfg raw) k ++ (runLoop cfg op (k + 1) f).1,
        (runLoop cfg op (k + 1) f).2) := by
  rw [runLoop, h]
  simp [hdec]

theorem runLoop_stop0_eq (cfg : CatchAsyncOptions T) (op : Operation T)
    (k : Nat) (raw : ErrVal) (h : attemptOutcome cfg op k = .error raw) :
    runLoop cfg op k 0 =
      (failEvents cfg (applyTransform cfg raw) k ++ finallyTail cfg,
        failExit cfg (applyTransform cfg raw) k) := by
  rw [runLoop, h]

theorem runLoop_stopdec_eq (cfg : CatchAsyncOptions T) (op : Operation T)
    (k fuel : Nat) (raw : ErrVal) (h : attemptOutcome cfg op k = .error raw)
    (hdec : retryDecision cfg (applyTransform cfg raw) k = false) :
    runLoop cfg op k fuel =
      (failEvents cfg (applyTransform cfg raw) k ++ finallyTail cfg,
        failExit cfg (applyTransform cfg raw) k) := by
  cases fuel with
  | zero => exact runLoop_stop0_eq cfg op k raw h
  | succ f =>
    rw [runLoop, h]
    simp [hdec]

/-- Shape of a run whose attempts `k, …, K - 1` fail with the retry
predicate allowing a further attempt, and whose attempt `K` succeeds:
the trace is the block of failed attempts followed by the success events,
and the invocation resolves with the success record of attempt `K`. -/
theorem runLoop_successRun (cfg : CatchAsyncOptions T) (op : Operation T)
    (errs : Nat → ErrVal) (K : Nat) (v : T) :
    ∀ fuel k, k ≤ K → K ≤ k + fuel →
    (∀ j, k ≤ j → j < K → attemptOutcome cfg op j = .error (errs j)) →
    (∀ j, k ≤ j → j < K →
      retryDecision cfg (applyTransform cfg (errs j)) j = true) →
    attemptOutcome cfg op K = .ok v →
    runLoop cfg op k fuel =
      (failRunTrace cfg (fun j => applyTransform cfg (errs j)) k (K - k) ++
          successEvents cfg v K,
        .resolved ⟨some v, none, K, decide (1 < K)⟩) := by
  intro fuel
  induction fuel with
  | zero =>
    intro k hk hfuel _ _ hok
    have hkK : k = K := by omega
    subst hkK
    rw [runLoop_succ_eq cfg op k 0 v hok]
    simp [failRunTrace]
  | succ f ih =>
    intro k hk hfuel hfail hret hok
    by_cases hkK : k = K
    · subst hkK
      rw [runLoop_succ_eq cfg op k (f + 1) v hok]
      simp [failRunTrace]
    · have hlt : k < K := lt_of_le_of_ne hk hkK
      have hstep :=
        runLoop_retry_eq cfg op k f (errs k) (hfail k le_rfl hlt)
          (hret k le_rfl hlt)
      have hrest := ih (k + 1) (by omega) (by omega)
        (fun j h1 h2 => hfail j (by omega) h2)
        (fun j h1 h2 => hret j (by omega) h2) hok
      have hKk : K - k = (K - (k + 1)) + 1 := by omega
      rw [hstep, hrest, hKk]
      simp [failRunTrace, List.append_assoc]

/-- Shape of a run whose attempts `k, …, k + fuel` all fail with the retry
predicate allowing a further attempt whenever fuel remains: the trace is
the block of the `fuel + 1` failed attempts followed by the trailing
`onFinally`, and the invocation exits through `failExit` at attempt
`k + fuel`. -/
theorem runLoop_allFailRun (cfg : CatchAsyncOptions T) (op : Operation T)
    (errs : Nat → ErrVal) :
    ∀ fuel k,
    (∀ i, i ≤ fuel → attemptOutcome cfg op (k + i) = .error (errs (k + i))) →
    (∀ i, i < fuel →
      retryDecision cfg (applyTransform cfg (errs (k + i))) (k + i) = true) →
    runLoop cfg op k fuel =
      (failRunTrace cfg (fun j => applyTransform cfg (errs j)) k (fuel + 1) ++
          finallyTail cfg,
        failExit cfg (applyTransform cfg (errs (k + fuel))) (k + fuel)) := by
  intro fuel
  induction fuel with
  | zero =>
    intro k hfail _
    have h0 := hfail 0 le_rfl
    rw [Nat.add_zero] at h0
    rw [runLoop_stop0_eq cfg op k (errs k) h0]
    simp [failRunTrace]
  | succ f ih =>
    intro k hfail hret
    have h0 := hfail 0 (by omega)
    rw [Nat.add_zero] at h0
    have hd := hret 0 (by omega)
    rw [Nat.add_zero] at hd
    have hstep := runLoop_retry_eq cfg op k f (errs k) h0 hd
    have hrest := ih (k + 1)
      (fun i hi => by
        have := hfail (i + 1) (by omega)
        have hadd : k + (i + 1) = k + 1 + i := by omega
        rw [hadd] at this
        exact this)
      (fun i hi => by
        have := hret (i + 1) (by omega)
        have hadd : k + (i + 1) = k + 1 + i := by omega
        rw [hadd] at this
        exact this)
    have hadd2 : k + 1 + f = k + (f + 1) := by omega
    rw [hstep, hrest, hadd2]
    simp [failRunTrace, List.append_assoc]

/-- Shape of a run whose attempts `k, …, K` all fail, the retry predicate
allowing continuation strictly before `K` and refusing it at `K`: the
trace is the block of the failed attempts `k, …, K` followed by the
trailing `onFinally`, and the invocation exits through `failExit` at
attempt `K` even when fuel remains. -/
theorem runLoop_stopRun (cfg : CatchAsyncOptions T) (op : Operation T)
    (errs : Nat → ErrVal) (K : Nat) :
    ∀ fuel k, k ≤ K → K ≤ k + fuel →
    (∀ j, k ≤ j → j ≤ K → attemptOutcome cfg op j = .error (errs j)) →
    (∀ j, k ≤ j → j < K →
      retryDecision cfg (applyTransform cfg (errs j)) j = true) →
    retryDecision cfg (applyTransform cfg (errs K)) K = false →
    runLoop cfg op k fuel =
      (failRunTrace cfg (fun j => applyTransform cfg (errs j)) k (K - k + 1) ++
          finallyTail cfg,
        failExit cfg (applyTransform cfg (errs K)) K) := by
  intro fuel
  induction fuel with
  | zero =>
    intro k hk hfuel hfail _ hstop
    have hkK : k = K := by omega
    subst hkK
    rw [runLoop_stop0_eq cfg op k (errs k) (hfail k le_rfl le_rfl)]
    simp [failRunTrace]
  | succ f ih =>
    intro k hk hfuel hfail hret hstop
    by_cases hkK : k = K
    · subst hkK
      rw [runLoop_stopdec_eq cfg op k (f + 1) (errs k)
        (hfail k le_rfl le_rfl) hstop]
      simp [failRunTrace]
    · have hlt : k < K := lt_of_le_of_ne hk hkK
      have hstep :=
        runLoop_retry_eq cfg op k f (errs k) (hfail k le_rfl (by omega))
          (hret k le_rfl hlt)
      have hrest := ih (k + 1) (by omega) (by omega)
        (fun j h1 h2 => hfail j (by omega) h2)
        (fun j h1 h2 => hret j (by omega) h2) hstop
      have hKk : K - k + 1 = (K - (k + 1) + 1) + 1 := by omega
      rw [hstep, hrest, hKk]
      simp [failRunTrace, List.append_assoc]

theorem countP_failEvents_opCall (cfg : CatchAsyncOptions T) (e : ErrVal)
    (k : Nat) : (failEvents cfg e k).countP Event.isOpCall = 1 := by
  cases hL : cfg.hasLogger <;> cases hE : cfg.hasOnError <;>
    simp [failEvents, hL, hE, Event.isOpCall]

theorem countP_failEvents_logger (cfg : CatchAsyncOptions T) (e : ErrVal)
    (k : Nat) :
    (failEvents cfg e k).countP Event.isLoggerCall =
      if cfg.hasLogger then 1 else 0 := by
  cases hL : cfg.hasLogger <;> cases hE : cfg.hasOnError <;>
    simp [failEvents, hL, hE, Event.isLoggerCall]

theorem countP_failEvents_onError (cfg : CatchAsyncOptions T) (e : ErrVal)
    (k : Nat) :
    (failEvents cfg e k).countP Event.isOnError =
      if cfg.hasOnError then 1 else 0 := by
  cases hL : cfg.hasLogger <;> cases hE : cfg.hasOnError <;>
    simp [failEvents, hL, hE, Event.isOnError]

theorem countP_failEvents_onSuccess (cfg : CatchAsyncOptions T) (e : ErrVal)
    (k : Nat) : (failEvents cfg e k).countP Event.isOnSuccess = 0 := by
  cases hL : cfg.hasLogger <;> cases hE : cfg.hasOnError <;>
    simp [failEvents, hL, hE, Event.isOnSuccess]

theorem countP_failEvents_onFinally (cfg : CatchAsyncOptions T) (e : ErrVal)
    (k : Nat) : (failEvents cfg e k).countP Event.isOnFinally = 0 := by
  cases hL : cfg.hasLogger <;> cases hE : cfg.hasOnError <;>
    simp [failEvents, hL, hE, Event.isOnFinally]

theorem countP_failRunTrace_opCall (cfg : CatchAsyncOptions T)
    (errs : Nat → ErrVal) :
    ∀ n k, (failRunTrace cfg errs k n).countP Event.isOpCall = n := by
  intro n
  induction n with
  | zero => intro k; simp [failRunTrace]
  | succ m ih =>
    intro k
    simp [failRunTrace, List.countP_append, countP_failEvents_opCall, ih,
      Nat.add_comm]

theorem countP_failRunTrace_logger (cfg : CatchAsyncOptions T)
    (errs : Nat → ErrVal) :
    ∀ n k, (failRunTrace cfg errs k n).countP Event.isLoggerCall =
      if cfg.hasLogger then n else 0 := by
  intro n
  induction n with
  | zero => intro k; simp [failRunTrace]
  | succ m ih =>
    intro k
    cases hL : cfg.hasLogger <;>
      simp [failRunTrace, List.countP_append, countP_failEvents_logger, ih, hL,
        Nat.add_comm]

theorem countP_failRunTrace_onError (cfg : CatchAsyncOptions T)
    (errs : Nat → ErrVal) :
    ∀ n k, (failRunTrace cfg errs k n).countP Event.isOnError =
      if cfg.hasOnError then n else 0 := by
  intro n
  induction n with
  | zero => intro k; simp [failRunTrace]
  | succ m ih =>
    intro k
    cases hE : cfg.hasOnError <;>
      simp [failRunTrace, List.countP_append, countP_failEvents_onError, ih, hE,
        Nat.add_comm]

theorem countP_failRunTrace_onSuccess (cfg : CatchAsyncOptions T)
    (errs : Nat → ErrVal) :
    ∀ n k, (failRunTrace cfg errs k n).countP Event.isOnSuccess = 0 := by
  intro n
  induction n with
  | zero => intro k; simp [failRunTrace]
  | succ m ih =>
    intro k
    simp [failRunTrace, List.countP_append, countP_failEvents_onSuccess, ih]

theorem countP_failRunTrace_onFinally (cfg : CatchAsyncOptions T)
    (errs : Nat → ErrVal) :
    ∀ n k, (failRunTrace cfg errs k n).countP Event.isOnFinally = 0 := by
  intro n
  induction n with
  | zero => intro k; simp [failRunTrace]
  | succ m ih =>
    intro k
    simp [failRunTrace, List.countP_append, countP_failEvents_onFinally, ih]

theorem countP_successEvents_opCall (cfg : CatchAsyncOptions T) (v : T)
    (k : Nat) : (successEvents cfg v k).countP Event.isOpCall = 1 := by
  cases hS : cfg.hasOnSuccess <;> cases hF : cfg.hasOnFinally <;>
    simp [successEvents, hS, hF, Event.isOpCall]

theorem countP_successEvents_onSuccess (cfg : CatchAsyncOptions T) (v : T)
    (k : Nat) :
    (successEvents cfg v k).countP Event.isOnSuccess =
      if cfg.hasOnSuccess then 1 else 0 := by
  cases hS : cfg.hasOnSuccess <;> cases hF : cfg.hasOnFinally <;>
    simp [successEvents, hS, hF, Event.isOnSuccess]

theorem countP_successEvents_logger (cfg : CatchAsyncOptions T) (v : T)
    (k : Nat) : (successEvents cfg v k).countP Event.isLoggerCall = 0 := by
  cases hS : cfg.hasOnSuccess <;> cases hF : cfg.hasOnFinally <;>
    simp [successEvents, hS, hF, Event.isLoggerCall]

theorem countP_successEvents_onError (cfg : CatchAsyncOptions T) (v : T)
    (k : Nat) : (successEvents cfg v k).countP Event.isOnError = 0 := by
  cases hS : cfg.hasOnSuccess <;> cases hF : cfg.hasOnFinally <;>
    simp [successEvents, hS, hF, Event.isOnError]

theorem countP_finallyTail_opCall (cfg : CatchAsyncOptions T) :
    (finallyTail cfg : List (Event T)).countP Event.isOpCall = 0 := by
  cases hF : cfg.hasOnFinally <;> simp [finallyTail, hF, Event.isOpCall]

theorem countP_finallyTail_logger (cfg : CatchAsyncOptions T) :
    (finallyTail cfg : List (Event T)).countP Event.isLoggerCall = 0 := by
  cases hF : cfg.hasOnFinally <;> simp [finallyTail, hF, Event.isLoggerCall]

theorem countP_finallyTail_onError (cfg : CatchAsyncOptions T) :
    (finallyTail cfg : List (Event T)).countP Event.isOnError = 0 := by
  cases hF : cfg.hasOnFinally <;> simp [finallyTail, hF, Event.isOnError]

theorem countP_finallyTail_onSuccess (cfg : CatchAsyncOptions T) :
    (finallyTail cfg : List (Event T)).countP Event.isOnSuccess = 0 := by
  cases hF : cfg.hasOnFinally <;> simp [finallyTail, hF, Event.isOnSuccess]

theorem loggerEv_mem_failEvents (cfg : CatchAsyncOptions T) (te e : ErrVal)
    (k kk : Nat) (h : Event.loggerEv e kk ∈ failEvents cfg te k) :
    e = te ∧ kk = k := by
  cases hL : cfg.hasLogger <;> cases hE : cfg.hasOnError <;>
    simp [failEvents, hL, hE] at h <;> tauto

theorem onErrorEv_mem_failEvents (cfg : CatchAsyncOptions T) (te e : ErrVal)
    (k : Nat) (h : Event.onErrorEv e ∈ failEvents cfg te k) : e = te := by
  cases hL : cfg.hasLogger <;> cases hE : cfg.hasOnError <;>
    simp [failEvents, hL, hE] at h <;> tauto

theorem onSuccessEv_not_mem_failEvents (cfg : CatchAsyncOptions T)
    (te : ErrVal) (k : Nat) (w : T) :
    Event.onSuccessEv w ∉ failEvents cfg te k := by
  cases hL : cfg.hasLogger <;> cases hE : cfg.hasOnError <;>
    simp [failEvents, hL, hE]

theorem onSuccessEv_not_mem_failRunTrace (cfg : CatchAsyncOptions T)
    (errs : Nat → ErrVal) (w : T) :
    ∀ n k, Event.onSuccessEv w ∉ failRunTrace cfg errs k n := by
  intro n
  induction n with
  | zero => intro k; simp [failRunTrace]
  | succ m ih =>
    intro k h
    rcases List.mem_append.mp h with h1 | h2
    · exact onSuccessEv_not_mem_failEvents cfg (errs k) k w h1
    · exact ih (k + 1) h2

theorem onSuccessEv_not_mem_finallyTail (cfg : CatchAsyncOptions T) (w : T) :
    Event.onSuccessEv w ∉ (finallyTail cfg : List (Event T)) := by
  cases hF : cfg.hasOnFinally <;> simp [finallyTail, hF]

theorem onSuccessEv_mem_successEvents (cfg : CatchAsyncOptions T) (v w : T)
    (k : Nat) (h : Event.onSuccessEv w ∈ successEvents cfg v k) : w = v := by
  cases hS : cfg.hasOnSuccess <;> cases hF : cfg.hasOnFinally <;>
    simp [successEvents, hS, hF] at h <;> tauto

theorem loggerEv_not_mem_successEvents (cfg : CatchAsyncOptions T) (v : T)
    (e : ErrVal) (kk k : Nat) :
    Event.loggerEv e kk ∉ successEvents cfg v k := by
  cases hS : cfg.hasOnSuccess <;> cases hF : cfg.hasOnFinally <;>
    simp [successEvents, hS, hF]

theorem onErrorEv_not_mem_successEvents (cfg : CatchAsyncOptions T) (v : T)
    (e : ErrVal) (k : Nat) :
    Event.onErrorEv e ∉ successEvents cfg v k := by
  cases hS : cfg.hasOnSuccess <;> cases hF : cfg.hasOnFinally <;>
    simp [successEvents, hS, hF]

theorem loggerEv_not_mem_finallyTail (cfg : CatchAsyncOptions T) (e : ErrVal)
    (kk : Nat) : Event.loggerEv e kk ∉ (finallyTail cfg : List (Event T)) := by
  cases hF : cfg.hasOnFinally <;> simp [finallyTail, hF]

theorem onErrorEv_not_mem_finallyTail (cfg : CatchAsyncOptions T)
    (e : ErrVal) : Event.onErrorEv e ∉ (finallyTail cfg : List (Event T)) := by
  cases hF : cfg.hasOnFinally <;> simp [finallyTail, hF]

/-- The loop never records more operation invocations than `fuel + 1`. -/
theorem runLoop_opCall_bound (cfg : CatchAsyncOptions T) (op : Operation T) :
    ∀ fuel k, (runLoop cfg op k fuel).1.countP Event.isOpCall ≤ fuel + 1 := by
  intro fuel
  induction fuel with
  | zero =>
    intro k
    cases ho : attemptOutcome cfg op k with
    | ok v =>
      rw [runLoop_succ_eq cfg op k 0 v ho]
      simp [countP_successEvents_opCall]
    | error raw =>
      rw [runLoop_stop0_eq cfg op k raw ho]
      simp [List.countP_append, countP_failEvents_opCall,
        countP_finallyTail_opCall]
  | succ f ih =>
    intro k
    cases ho : attemptOutcome cfg op k with
    | ok v =>
      rw [runLoop_succ_eq cfg op k (f + 1) v ho]
      simp [countP_successEvents_opCall]
    | error raw =>
      cases hdec : retryDecision cfg (applyTransform cfg raw) k with
      | false =>
        rw [runLoop_stopdec_eq cfg op k (f + 1) raw ho hdec]
        simp [List.countP_append, countP_failEvents_opCall,
          countP_finallyTail_opCall]
      | true =>
        rw [runLoop_retry_eq cfg op k f raw ho hdec]
        have := ih (k + 1)
        simp only [List.countP_append, countP_failEvents_opCall]
        omega

/-- Whatever the run does, when `onFinally` is supplied the trace ends
with the single `onFinally` event. -/
theorem runLoop_finallyLast (cfg : CatchAsyncOptions T) (op : Operation T)
    (hf : cfg.hasOnFinally = true) :
    ∀ fuel k, ∃ es, (runLoop cfg op k fuel).1 = es ++ [Event.onFinallyEv] ∧
      es.countP Event.isOnFinally = 0 := by
  intro fuel
  induction fuel with
  | zero =>
    intro k
    cases ho : attemptOutcome cfg op k with
    | ok v =>
      rw [runLoop_succ_eq cfg op k 0 v ho]
      refine ⟨Event.opCall k ::
        (if cfg.hasOnSuccess then [Event.onSuccessEv v] else []), ?_, ?_⟩
      · simp [successEvents, hf]
      · cases hS : cfg.hasOnSuccess <;>
          simp [hS, Event.isOnFinally, Event.isOpCall, Event.isOnSuccess]
    | error raw =>
      rw [runLoop_stop0_eq cfg op k raw ho]
      refine ⟨failEvents cfg (applyTransform cfg raw) k, ?_, ?_⟩
      · simp [finallyTail, hf]
      · exact countP_failEvents_onFinally cfg (applyTransform cfg raw) k
  | succ f ih =>
    intro k
    cases ho : attemptOutcome cfg op k with
    | ok v =>
      rw [runLoop_succ_eq cfg op k (f + 1) v ho]
      refine ⟨Event.opCall k ::
        (if cfg.hasOnSuccess then [Event.onSuccessEv v] else []), ?_, ?_⟩
      · simp [successEvents, hf]
      · cases hS : cfg.hasOnSuccess <;>
          simp [hS, Event.isOnFinally, Event.isOpCall, Event.isOnSuccess]
    | error raw =>
      cases hdec : retryDecision cfg (applyTransform cfg raw) k with
      | false =>
        rw [runLoop_stopdec_eq cfg op k (f + 1) raw ho hdec]
        refine ⟨failEvents cfg (applyTransform cfg raw) k, ?_, ?_⟩
        · simp [finallyTail, hf]
        · exact countP_failEvents_onFinally cfg (applyTransform cfg raw) k
      | true =>
        rw [runLoop_retry_eq cfg op k f raw ho hdec]
        obtain ⟨es, hes, hcount⟩ := ih (k + 1)
        refine ⟨failEvents cfg (applyTransform cfg raw) k ++ es, ?_, ?_⟩
        · simp only [hes, List.append_assoc]
        · simp [List.countP_append, hcount,
            countP_failEvents_onFinally cfg (applyTransform cfg raw) k]

/-- Any error handed to `logger` is the `transformError`-image of the raw
error the corresponding attempt actually failed with. -/
theorem runLoop_logger_origin (cfg : CatchAsyncOptions T) (op : Operation T) :
    ∀ fuel k e kk, Event.loggerEv e kk ∈ (runLoop cfg op k fuel).1 →
      ∃ raw, attemptOutcome cfg op kk = .error raw ∧
        e = applyTransform cfg raw := by
  intro fuel
  induction fuel with
  | zero =>
    intro k e kk h
    cases ho : attemptOutcome cfg op k with
    | ok v =>
      rw [runLoop_succ_eq cfg op k 0 v ho] at h
      exact absurd h (loggerEv_not_mem_successEvents cfg v e kk k)
    | error raw =>
      rw [runLoop_stop0_eq cfg op k raw ho] at h
      rcases List.mem_append.mp h with h1 | h2
      · obtain ⟨he, hk⟩ := loggerEv_mem_failEvents cfg _ e k kk h1
        subst hk
        exact ⟨raw, ho, he⟩
      · exact absurd h2 (loggerEv_not_mem_finallyTail cfg e kk)
  | succ f ih =>
    intro k e kk h
    cases ho : attemptOutcome cfg op k with
    | ok v =>
      rw [runLoop_succ_eq cfg op k (f + 1) v ho] at h
      exact absurd h (loggerEv_not_mem_successEvents cfg v e kk k)
    | error raw =>
      cases hdec : retryDecision cfg (applyTransform cfg raw) k with
      | false =>
        rw [runLoop_stopdec_eq cfg op k (f + 1) raw ho hdec] at h
        rcases List.mem_append.mp h with h1 | h2
        · obtain ⟨he, hk⟩ := loggerEv_mem_failEvents cfg _ e k kk h1
          subst hk
          exact ⟨raw, ho, he⟩
        · exact absurd h2 (loggerEv_not_mem_finallyTail cfg e kk)
      | true =>
        rw [runLoop_retry_eq cfg op k f raw ho hdec] at h
        rcases List.mem_append.mp h with h1 | h2
        · obtain ⟨he, hk⟩ := loggerEv_mem_failEvents cfg _ e k kk h1
          subst hk
          exact ⟨raw, ho, he⟩
        · exact ih (k + 1) e kk h2

/-- Any error handed to `onError` is the `transformError`-image of the raw
error some attempt actually failed with. -/
theorem runLoop_onError_origin (cfg : CatchAsyncOptions T) (op : Operation T) :
    ∀ fuel k e, Event.onErrorEv e ∈ (runLoop cfg op k fuel).1 →
      ∃ kk raw, attemptOutcome cfg op kk = .error raw ∧
        e = applyTransform cfg raw := by
  intro fuel
  induction fuel with
  | zero =>
    intro k e h
    cases ho : attemptOutcome cfg op k with
    | ok v =>
      rw [runLoop_succ_eq cfg op k 0 v ho] at h
      exact absurd h (onErrorEv_not_mem_successEvents cfg v e k)
    | error raw =>
      rw [runLoop_stop0_eq cfg op k raw ho] at h
      rcases List.mem_append.mp h with h1 | h2
      · exact ⟨k, raw, ho, onErrorEv_mem_failEvents cfg _ e k h1⟩
      · exact absurd h2 (onErrorEv_not_mem_finallyTail cfg e)
  | succ f ih =>
    intro k e h
    cases ho : attemptOutcome cfg op k with
    | ok v =>
      rw [runLoop_succ_eq cfg op k (f + 1) v ho] at h
      exact absurd h (onErrorEv_not_mem_successEvents cfg v e k)
    | error raw =>
      cases hdec : retryDecision cfg (applyTransform cfg raw) k with
      | false =>
        rw [runLoop_stopdec_eq cfg op k (f + 1) raw ho hdec] at h
        rcases List.mem_append.mp h with h1 | h2
        · exact ⟨k, raw, ho, onErrorEv_mem_failEvents cfg _ e k h1⟩
        · exact absurd h2 (onErrorEv_not_mem_finallyTail cfg e)
      | true =>
        rw [runLoop_retry_eq cfg op k f raw ho hdec] at h
        rcases List.mem_append.mp h with h1 | h2
        · exact ⟨k, raw, ho, onErrorEv_mem_failEvents cfg _ e k h1⟩
        · exact ih (k + 1) e h2

/-- When a run resolves with a populated `error` field, the `result` field
carries `defaultValue` and the error is the `transformError`-image of the
raw error of the final attempt. -/
theorem runLoop_resolved_error (cfg : CatchAsyncOptions T) (op : Operation T) :
    ∀ fuel k r e, (runLoop cfg op k fuel).2 = .resolved r →
      r.error = some e →
      r.result = cfg.defaultValue ∧
      ∃ raw, attemptOutcome cfg op r.attempts = .error raw ∧
        e = applyTransform cfg raw := by
  intro fuel
  induction fuel with
  | zero =>
    intro k r e h2 herr
    cases ho : attemptOutcome cfg op k with
    | ok v =>
      rw [runLoop_succ_eq cfg op k 0 v ho] at h2
      simp at h2
      rw [← h2] at herr
      simp at herr
    | error raw =>
      rw [runLoop_stop0_eq cfg op k raw ho] at h2
      cases hre : cfg.rethrow with
      | true => simp [failExit, hre] at h2
      | false =>
        simp [failExit, hre] at h2
        rw [← h2] at herr ⊢
        simp at herr
        subst herr
        exact ⟨rfl, raw, ho, rfl⟩
  | succ f ih =>
    intro k r e h2 herr
    cases ho : attemptOutcome cfg op k with
    | ok v =>
      rw [runLoop_succ_eq cfg op k (f + 1) v ho] at h2
      simp at h2
      rw [← h2] at herr
      simp at herr
    | error raw =>
      cases hdec : retryDecision cfg (applyTransform cfg raw) k with
      | false =>
        rw [runLoop_stopdec_eq cfg op k (f + 1) raw ho hdec] at h2
        cases hre : cfg.rethrow with
        | true => simp [failExit, hre] at h2
        | false =>
          simp [failExit, hre] at h2
          rw [← h2] at herr ⊢
          simp at herr
          subst herr
          exact ⟨rfl, raw, ho, rfl⟩
      | true =>
        rw [runLoop_retry_eq cfg op k f raw ho hdec] at h2
        exact ih (k + 1) r e h2 herr

/-- With `rethrow` unset the loop always resolves with a structured
result. -/
theorem runLoop_resolves (cfg : CatchAsyncOptions T) (op : Operation T)
    (hre : cfg.rethrow = false) :
    ∀ fuel k, ∃ r, (runLoop cfg op k fuel).2 = .resolved r := by
  intro fuel
  induction fuel with
  | zero =>
    intro k
    cases ho : attemptOutcome cfg op k with
    | ok v =>
      rw [runLoop_succ_eq cfg op k 0 v ho]
      exact ⟨_, rfl⟩
    | error raw =>
      rw [runLoop_stop0_eq cfg op k raw ho]
      exact ⟨⟨cfg.defaultValue, some (applyTransform cfg raw), k,
        decide (1 < k)⟩, by simp [failExit, hre]⟩
  | succ f ih =>
    intro k
    cases ho : attemptOutcome cfg op k with
    | ok v =>
      rw [runLoop_succ_eq cfg op k (f + 1) v ho]
      exact ⟨_, rfl⟩
    | error raw =>
      cases hdec : retryDecision cfg (applyTransform cfg raw) k with
      | false =>
        rw [runLoop_stopdec_eq cfg op k (f + 1) raw ho hdec]
        exact ⟨⟨cfg.defaultValue, some (applyTransform cfg raw), k,
          decide (1 < k)⟩, by simp [failExit, hre]⟩
      | true =>
        rw [runLoop_retry_eq cfg op k f raw ho hdec]
        exact ih (k + 1)

/-- When every attempt fails with one and the same error value, the loop
exits through `failExit` with its transform, whatever the retry
predicate decides. -/
theorem runLoop_const_error (cfg : CatchAsyncOptions T) (op : Operation T)
    (e0 : ErrVal) (he : ∀ j, attemptOutcome cfg op j = .error e0) :
    ∀ fuel k, ∃ n, (runLoop cfg op k fuel).2 =
      failExit cfg (applyTransform cfg e0) n := by
  intro fuel
  induction fuel with
  | zero =>
    intro k
    rw [runLoop_stop0_eq cfg op k e0 (he k)]
    exact ⟨k, rfl⟩
  | succ f ih =>
    intro k
    cases hdec : retryDecision cfg (applyTransform cfg e0) k with
    | false =>
      rw [runLoop_stopdec_eq cfg op k (f + 1) e0 (he k) hdec]
      exact ⟨k, rfl⟩
    | true =>
      rw [runLoop_retry_eq cfg op k f e0 (he k) hdec]
      exact ih (k + 1)

/-- When every attempt in the fuel window fails, the loop exits through
`failExit` at some last attempt `K` inside the window — whatever the
retry predicate decides — and records exactly the operation invocations
`k, …, K`. -/
theorem runLoop_allFail_exit (cfg : CatchAsyncOptions T) (op : Operation T)
    (errs : Nat → ErrVal) :
    ∀ fuel k,
    (∀ j, k ≤ j → j ≤ k + fuel → attemptOutcome cfg op j = .error (errs j)) →
    ∃ K, k ≤ K ∧ K ≤ k + fuel ∧
      (runLoop cfg op k fuel).2 =
        failExit cfg (applyTransform cfg (errs K)) K ∧
      (runLoop cfg op k fuel).1.countP Event.isOpCall = K - k + 1 := by
  intro fuel
  induction fuel with
  | zero =>
    intro k hfail
    have h0 := hfail k le_rfl (by omega)
    rw [runLoop_stop0_eq cfg op k (errs k) h0]
    refine ⟨k, le_rfl, by omega, rfl, ?_⟩
    simp only [List.countP_append, countP_failEvents_opCall,
      countP_finallyTail_opCall]
    omega
  | succ f ih =>
    intro k hfail
    have h0 := hfail k le_rfl (by omega)
    cases hdec : retryDecision cfg (applyTransform cfg (errs k)) k with
    | false =>
      rw [runLoop_stopdec_eq cfg op k (f + 1) (errs k) h0 hdec]
      refine ⟨k, le_rfl, by omega, rfl, ?_⟩
      simp only [List.countP_append, countP_failEvents_opCall,
        countP_finallyTail_opCall]
      omega
    | true =>
      rw [runLoop_retry_eq cfg op k f (errs k) h0 hdec]
      obtain ⟨K, hK1, hK2, hexit, hcount⟩ := ih (k + 1)
        (fun j hj1 hj2 => hfail j (by omega) (by omega))
      refine ⟨K, by omega, by omega, hexit, ?_⟩
      simp only [List.countP_append, countP_failEvents_opCall, hcount]
      omega

/-- C1: if some attempt `K` (counted from 1) resolves successfully with
value `v`, `catchAsync` performs no further attempts and resolves with
`{ result: v, error: undefined, attempts: K, retried: K > 1 }`, and
`onSuccess`, when provided, is invoked exactly once, with that resolved
value; a first-attempt success yields `attempts = 1` and
`retried = false`. -/
theorem claim1_success_terminal (op : Operation T) (cfg : CatchAsyncOptions T)
    (K : Nat) (v : T) (errs : Nat → ErrVal)
    (hK1 : 1 ≤ K) (hKc : K ≤ cfg.retryCount + 1)
    (hfail : ∀ j, 1 ≤ j → j < K → attemptOutcome cfg op j = .error (errs j))
    (hret : ∀ j, 1 ≤ j → j < K →
      retryDecision cfg (applyTransform cfg (errs j)) j = true)
    (hok : attemptOutcome cfg op K = .ok v) :
    (catchAsync op cfg).2 = .resolved ⟨some v, none, K, decide (1 < K)⟩ ∧
    (catchAsync op cfg).1.countP Event.isOpCall = K ∧
    (catchAsync op cfg).1.countP Event.isOnSuccess =
      (if cfg.hasOnSuccess then 1 else 0) ∧
    ∀ w, Event.onSuccessEv w ∈ (catchAsync op cfg).1 → w = v := by
  have hrun := runLoop_successRun cfg op errs K v cfg.retryCount 1 hK1
    (by omega) hfail hret hok
  unfold catchAsync
  rw [hrun]
  refine ⟨rfl, ?_, ?_, ?_⟩
  · simp only [List.countP_append, countP_failRunTrace_opCall,
      countP_successEvents_opCall]
    omega
  · simp [List.countP_append, countP_failRunTrace_onSuccess,
      countP_successEvents_onSuccess]
  · intro w hw
    rcases List.mem_append.mp hw with h1 | h2
    · exact absurd h1 (onSuccessEv_not_mem_failRunTrace cfg _ w (K - 1) 1)
    · exact onSuccessEv_mem_successEvents cfg v w K h2

/-- C1 witness: with `retryCount: 2`, an operation failing on attempt 1 and
resolving `"ok"` on attempt 2 settles as
`{ result: "ok", error: undefined, attempts: 2, retried: true }`, with two
operation invocations and one `onSuccess("ok")`. -/
theorem claim1_success_terminal_witness :
    (catchAsync wOp1 wCfg1).2 =
      .resolved ⟨some "ok", none, 2, true⟩ ∧
    (catchAsync wOp1 wCfg1).1.countP Event.isOpCall = 2 ∧
    (catchAsync wOp1 wCfg1).1.countP Event.isOnSuccess = 1 ∧
    ∀ w, Event.onSuccessEv w ∈ (catchAsync wOp1 wCfg1).1 → w = "ok" :=
  claim1_success_terminal wOp1 wCfg1 2 "ok" (fun _ => ErrVal.error "first")
    (by decide) (by decide)
    (fun j h1 h2 => by
      have hj : j = 1 := by omega
      subst hj
      rfl)
    (fun j h1 h2 => by
      have hj : j = 1 := by omega
      subst hj
      rfl)
    rfl

/-- C2: with `retryCount = N`, the default retry predicate, `rethrow`
unset, and an operation failing on every attempt, the operation is invoked
exactly `N + 1` times, `logger` and `onError` (when provided) each fire
`N + 1` times, and the final `error` field holds the transformed error of
the last attempt. -/
theorem claim2_retries_exhausted (op : Operation T)
    (cfg : CatchAsyncOptions T) (errs : Nat → ErrVal)
    (hsr : cfg.shouldRetry = none) (hre : cfg.rethrow = false)
    (hfail : ∀ j, 1 ≤ j → j ≤ cfg.retryCount + 1 →
      attemptOutcome cfg op j = .error (errs j)) :
    (catchAsync op cfg).1.countP Event.isOpCall = cfg.retryCount + 1 ∧
    (catchAsync op cfg).1.countP Event.isLoggerCall =
      (if cfg.hasLogger then cfg.retryCount + 1 else 0) ∧
    (catchAsync op cfg).1.countP Event.isOnError =
      (if cfg.hasOnError then cfg.retryCount + 1 else 0) ∧
    (catchAsync op cfg).2 = .resolved
      ⟨cfg.defaultValue,
        some (applyTransform cfg (errs (cfg.retryCount + 1))),
        cfg.retryCount + 1, decide (1 < cfg.retryCount + 1)⟩ := by
  have hrun := runLoop_allFailRun cfg op errs cfg.retryCount 1
    (fun i hi => hfail (1 + i) (by omega) (by omega))
    (fun i hi => by
      rw [retryDecision_none cfg hsr]
      simp only [decide_eq_true_eq]
      omega)
  have hc : 1 + cfg.retryCount = cfg.retryCount + 1 := by omega
  rw [hc] at hrun
  unfold catchAsync
  rw [hrun]
  refine ⟨?_, ?_, ?_, ?_⟩
  · simp [List.countP_append, countP_failRunTrace_opCall,
      countP_finallyTail_opCall]
  · cases hL : cfg.hasLogger <;>
      simp [List.countP_append, countP_failRunTrace_logger,
        countP_finallyTail_logger, hL]
  · cases hE : cfg.hasOnError <;>
      simp [List.countP_append, countP_failRunTrace_onError,
        countP_finallyTail_onError, hE]
  · simp [failExit, hre]

/-- C2 witness: with `retryCount: 1`, `transformError` wrapping messages,
a logger, an `onError` hook and `defaultValue: "x"`, an operation always
rejecting `Error("raw")` is invoked twice, `logger` and `onError` fire
twice, and the call settles as `{ result: "x",
error: Error("wrapped:raw"), attempts: 2, retried: true }`. -/
theorem claim2_retries_exhausted_witness :
    (catchAsync wOpRaw wCfg2).1.countP Event.isOpCall = 2 ∧
    (catchAsync wOpRaw wCfg2).1.countP Event.isLoggerCall = 2 ∧
    (catchAsync wOpRaw wCfg2).1.countP Event.isOnError = 2 ∧
    (catchAsync wOpRaw wCfg2).2 = .resolved
      ⟨some "x", some (ErrVal.error "wrapped:raw"), 2, true⟩ :=
  claim2_retries_exhausted wOpRaw wCfg2 (fun _ => ErrVal.error "raw")
    rfl rfl (fun _ _ _ => rfl)

/-- C3: for every operation and configuration — whatever `shouldRetry`
does — the orchestrator invokes the operation at most `retryCount + 1`
times and always settles, either resolving with a structured result or
rejecting with an error. -/
theorem claim3_bounded_and_settles (op : Operation T)
    (cfg : CatchAsyncOptions T) :
    (catchAsync op cfg).1.countP Event.isOpCall ≤ cfg.retryCount + 1 ∧
    ((∃ r, (catchAsync op cfg).2 = .resolved r) ∨
      (∃ e, (catchAsync op cfg).2 = .thrown e)) := by
  constructor
  · exact runLoop_opCall_bound cfg op cfg.retryCount 1
  · cases h : (catchAsync op cfg).2 with
    | resolved r => exact Or.inl ⟨r, rfl⟩
    | thrown e => exact Or.inr ⟨e, rfl⟩

/-- C4: when `onFinally` is provided, the recorded event trace ends with
the `onFinally` event, which occurs exactly once per invocation — after
every other event. -/
theorem claim4_finally_once_last (op : Operation T)
    (cfg : CatchAsyncOptions T) (hf : cfg.hasOnFinally = true) :
    ∃ es, (catchAsync op cfg).1 = es ++ [Event.onFinallyEv] ∧
      es.countP Event.isOnFinally = 0 ∧
      (catchAsync op cfg).1.countP Event.isOnFinally = 1 := by
  obtain ⟨es, hes, h0⟩ := runLoop_finallyLast cfg op hf cfg.retryCount 1
  have hes' : (catchAsync op cfg).1 = es ++ [Event.onFinallyEv] := hes
  refine ⟨es, hes', ?_, ?_⟩
  · exact h0
  · rw [hes', List.countP_append, h0]
    simp [Event.isOnFinally]

/-- C4 witness: with all three hooks present and a first-attempt success,
the trace is `[opCall 1, onSuccess "v", onFinally]`: the `onFinally` event
is last and occurs exactly once. -/
theorem claim4_finally_once_last_witness :
    ∃ es, (catchAsync wOpOk wCfg4).1 = es ++ [Event.onFinallyEv] ∧
      es.countP Event.isOnFinally = 0 ∧
      (catchAsync wOpOk wCfg4).1.countP Event.isOnFinally = 1 :=
  claim4_finally_once_last wOpOk wCfg4 rfl

/-- C5: every error handed to `logger`, every error handed to `onError`,
and the error surfaced in the final `error` field is the
`transformError`-image (identity when absent) of the raw error the
corresponding attempt actually failed with — never the raw error
itself. -/
theorem claim5_transform_first (op : Operation T)
    (cfg : CatchAsyncOptions T) :
    (∀ e kk, Event.loggerEv e kk ∈ (catchAsync op cfg).1 →
      ∃ raw, attemptOutcome cfg op kk = .error raw ∧
        e = applyTransform cfg raw) ∧
    (∀ e, Event.onErrorEv e ∈ (catchAsync op cfg).1 →
      ∃ kk raw, attemptOutcome cfg op kk = .error raw ∧
        e = applyTransform cfg raw) ∧
    (∀ r e, (catchAsync op cfg).2 = .resolved r → r.error = some e →
      ∃ raw, attemptOutcome cfg op r.attempts = .error raw ∧
        e = applyTransform cfg raw) :=
  ⟨fun e kk h => runLoop_logger_origin cfg op cfg.retryCount 1 e kk h,
    fun e h => runLoop_onError_origin cfg op cfg.retryCount 1 e h,
    fun r e h2 herr =>
      (runLoop_resolved_error cfg op cfg.retryCount 1 r e h2 herr).2⟩

/-- C5 witness: in the `transforms errors and logs attempts` scenario the
`logger(…, 1)` event carries `Error("wrapped:raw")`, the transform of the
raw `Error("raw")` thrown by attempt 1. -/
theorem claim5_transform_first_witness :
    ∃ raw, attemptOutcome wCfg2 wOpRaw 1 = .error raw ∧
      ErrVal.error "wrapped:raw" = applyTransform wCfg2 raw :=
  (claim5_transform_first wOpRaw wCfg2).1
    (ErrVal.error "wrapped:raw") 1 (by decide)

/-- C6: when the custom `shouldRetry` returns `false` after the failed
attempt `K`, no further attempt is made even if attempts remain under
`retryCount`: the operation is invoked exactly `K` times and the `error`
field holds the transformed error of attempt `K`. -/
theorem claim6_predicate_early_stop (op : Operation T)
    (cfg : CatchAsyncOptions T) (K : Nat) (errs : Nat → ErrVal)
    (hK1 : 1 ≤ K) (hKc : K ≤ cfg.retryCount + 1) (hre : cfg.rethrow = false)
    (hfail : ∀ j, 1 ≤ j → j ≤ K → attemptOutcome cfg op j = .error (errs j))
    (hret : ∀ j, 1 ≤ j → j < K →
      retryDecision cfg (applyTransform cfg (errs j)) j = true)
    (hstop : retryDecision cfg (applyTransform cfg (errs K)) K = false) :
    (catchAsync op cfg).1.countP Event.isOpCall = K ∧
    (catchAsync op cfg).2 = .resolved
      ⟨cfg.defaultValue, some (applyTransform cfg (errs K)), K,
        decide (1 < K)⟩ := by
  have hrun := runLoop_stopRun cfg op errs K cfg.retryCount 1 hK1
    (by omega) hfail hret hstop
  unfold catchAsync
  rw [hrun]
  constructor
  · simp only [List.countP_append, countP_failRunTrace_opCall,
      countP_finallyTail_opCall]
    omega
  · simp [failExit, hre]

/-- C6 witness: the custom-predicate test: `retryCount: 5`, an operation
failing with `"first"` then `"second"`, and a predicate refusing to
continue after `"second"` — exactly 2 invocations, final error
`Error("second")`. -/
theorem claim6_predicate_early_stop_witness :
    (catchAsync wOpSeq wCfg6).1.countP Event.isOpCall = 2 ∧
    (catchAsync wOpSeq wCfg6).2 = .resolved
      ⟨none, some (ErrVal.error "second"), 2, true⟩ :=
  claim6_predicate_early_stop wOpSeq wCfg6 2
    (fun j => if j = 1 then ErrVal.error "first" else ErrVal.error "second")
    (by decide) (by decide) rfl
    (fun j h1 h2 => by
      have hj : j = 1 ∨ j = 2 := by omega
      rcases hj with hj | hj <;> subst hj <;> rfl)
    (fun j h1 h2 => by
      have hj : j = 1 := by omega
      subst hj
      rfl)
    (by decide)

/-- C7: when `timeoutMs = t` is configured and on every attempt the timer
elapses before the operation settles, each attempt fails with the
synthesized timeout error, whose message contains `"timed out"` and which
is an `Error` instance; with no `defaultValue`, no `transformError` and
`rethrow` unset, the call resolves with `result = undefined` and
`error` equal to that timeout error. -/
theorem claim7_timeout (op : Operation T) (cfg : CatchAsyncOptions T)
    (t : Nat) (ht : cfg.timeoutMs = some t)
    (hd : ∀ j, t < (op j).duration)
    (htr : cfg.transformError = none)
    (hdv : cfg.defaultValue = none)
    (hre : cfg.rethrow = false) :
    (∀ j, attemptOutcome cfg op j = .error timeoutError) ∧
    (∃ a b, timeoutError.message = a ++ "timed out" ++ b) ∧
    timeoutError.isError = true ∧
    ∃ r, (catchAsync op cfg).2 = .resolved r ∧
      r.result = none ∧ r.error = some timeoutError := by
  have hall : ∀ j, attemptOutcome cfg op j = .error timeoutError := by
    intro j
    simp [attemptOutcome, ht, hd j]
  refine ⟨hall, ⟨"Operation ", "", by decide⟩, rfl, ?_⟩
  obtain ⟨n, hn⟩ :=
    runLoop_const_error cfg op timeoutError hall cfg.retryCount 1
  rw [applyTransform_none cfg htr] at hn
  refine ⟨⟨none, some timeoutError, n, decide (1 < n)⟩, ?_, rfl, rfl⟩
  unfold catchAsync
  rw [hn]
  simp [failExit, hre, hdv]

/-- C7 witness: the timeout test: `timeoutMs: 5` against an operation
settling after 30ms — every attempt fails with the timeout error, whose
message contains `"timed out"`, and the call resolves with
`result = undefined` and that error. -/
theorem claim7_timeout_witness :
    (∀ j, attemptOutcome wCfg7 wOpSlow j = .error timeoutError) ∧
    (∃ a b, timeoutError.message = a ++ "timed out" ++ b) ∧
    timeoutError.isError = true ∧
    ∃ r, (catchAsync wOpSlow wCfg7).2 = .resolved r ∧
      r.result = none ∧ r.error = some timeoutError :=
  claim7_timeout wOpSlow wCfg7 5 rfl
    (fun _ => by
      show (5 : Nat) < 30
      decide)
    rfl rfl rfl

/-- C8: when `rethrow` is unset and a `defaultValue` is supplied, the call
always resolves, and whenever it resolves with a populated `error` field
(all attempts failed), the `result` field carries the default value while
`error` holds the final transformed error — both fields populated at
once. -/
theorem claim8_default_both_populated (op : Operation T)
    (cfg : CatchAsyncOptions T) (d : T)
    (hdv : cfg.defaultValue = some d) (hre : cfg.rethrow = false) :
    (∃ r, (catchAsync op cfg).2 = .resolved r) ∧
    ∀ r e, (catchAsync op cfg).2 = .resolved r → r.error = some e →
      r.result = some d ∧
      ∃ raw, attemptOutcome cfg op r.attempts = .error raw ∧
        e = applyTransform cfg raw := by
  constructor
  · exact runLoop_resolves cfg op hre cfg.retryCount 1
  · intro r e h2 herr
    obtain ⟨hres, hraw⟩ :=
      runLoop_resolved_error cfg op cfg.retryCount 1 r e h2 herr
    exact ⟨by rw [hres, hdv], hraw⟩

/-- C8 witness: the swallowed-error test: with `defaultValue: "fallback"`
and an always-failing operation, the call resolves and any failure
resolution carries `result = "fallback"` together with the transformed
final error. -/
theorem claim8_default_both_populated_witness :
    (∃ r, (catchAsync wOpRaw wCfg8).2 = .resolved r) ∧
    ∀ r e, (catchAsync wOpRaw wCfg8).2 = .resolved r → r.error = some e →
      r.result = some "fallback" ∧
      ∃ raw, attemptOutcome wCfg8 wOpRaw r.attempts = .error raw ∧
        e = applyTransform wCfg8 raw :=
  claim8_default_both_populated wOpRaw wCfg8 "fallback" rfl rfl

/-- C9: when every attempt fails and `rethrow` is true — whatever the
retry predicate, custom or default — the call rejects with the transformed
error of the last attempt actually performed (`K`, the number of
operation invocations recorded), preserving that error's identity, and
produces no structured result. -/
theorem claim9_rethrow_final_error (op : Operation T)
    (cfg : CatchAsyncOptions T) (errs : Nat → ErrVal)
    (hre : cfg.rethrow = true)
    (hfail : ∀ j, 1 ≤ j → j ≤ cfg.retryCount + 1 →
      attemptOutcome cfg op j = .error (errs j)) :
    ∃ K, 1 ≤ K ∧ K ≤ cfg.retryCount + 1 ∧
      (catchAsync op cfg).1.countP Event.isOpCall = K ∧
      (catchAsync op cfg).2 = .thrown (applyTransform cfg (errs K)) ∧
      ∀ r, (catchAsync op cfg).2 ≠ .resolved r := by
  obtain ⟨K, hK1, hK2, hexit, hcount⟩ :=
    runLoop_allFail_exit cfg op errs cfg.retryCount 1
      (fun j h1 h2 => hfail j h1 (by omega))
  have hthrown : (catchAsync op cfg).2 =
      .thrown (applyTransform cfg (errs K)) := by
    unfold catchAsync
    rw [hexit]
    simp [failExit, hre]
  refine ⟨K, hK1, by omega, ?_, hthrown, ?_⟩
  · have hcount' : (catchAsync op cfg).1.countP Event.isOpCall =
        K - 1 + 1 := hcount
    omega
  · intro r hcon
    rw [hthrown] at hcon
    exact COutcome.noConfusion hcon

/-- C9 witness: `rethrow: true` combined with `retryCount: 5` and the
custom predicate refusing to continue after `"second"`, against an
operation failing `"first"` then `"second"` forever — the call rejects
with the final attempt's error and never resolves. -/
theorem claim9_rethrow_final_error_witness :
    ∃ K, 1 ≤ K ∧ K ≤ wCfg9.retryCount + 1 ∧
      (catchAsync wOpFirstSecond wCfg9).1.countP Event.isOpCall = K ∧
      (catchAsync wOpFirstSecond wCfg9).2 =
        .thrown (applyTransform wCfg9 (werrs9 K)) ∧
      ∀ r, (catchAsync wOpFirstSecond wCfg9).2 ≠ .resolved r :=
  claim9_rethrow_final_error wOpFirstSecond wCfg9 werrs9 rfl
    (fun j _ _ => by
      by_cases hj : j = 1
      · subst hj
        rfl
      · show (wOpFirstSecond j).outcome = .error (werrs9 j)
        simp [wOpFirstSecond, werrs9, hj])

/-- C10: when an attempt times out and no `transformError` is supplied
(and `rethrow` is unset), the failure surfaced in the final `error` field
is an `Error` instance — `isError` holds and it carries a message string —
not a bare non-`Error` value. -/
theorem claim10_timeout_error_instance (op : Operation T)
    (cfg : CatchAsyncOptions T) (t : Nat)
    (ht : cfg.timeoutMs = some t) (hd : ∀ j, t < (op j).duration)
    (htr : cfg.transformError = none) (hre : cfg.rethrow = false) :
    ∃ r e, (catchAsync op cfg).2 = .resolved r ∧ r.error = some e ∧
      e.isError = true ∧ ∃ m, e = ErrVal.error m := by
  have hall : ∀ j, attemptOutcome cfg op j = .error timeoutError := by
    intro j
    simp [attemptOutcome, ht, hd j]
  obtain ⟨n, hn⟩ :=
    runLoop_const_error cfg op timeoutError hall cfg.retryCount 1
  rw [applyTransform_none cfg htr] at hn
  refine ⟨⟨cfg.defaultValue, some timeoutError, n, decide (1 < n)⟩,
    timeoutError, ?_, rfl, rfl, "Operation timed out", rfl⟩
  unfold catchAsync
  rw [hn]
  simp [failExit, hre]

/-- C10 witness: in the timeout test the surfaced error is the `Error`
instance `Error("Operation timed out")`, not a bare string. -/
theorem claim10_timeout_error_instance_witness :
    ∃ r e, (catchAsync wOpSlow wCfg7).2 = .resolved r ∧ r.error = some e ∧
      e.isError = true ∧ ∃ m, e = ErrVal.error m :=
  claim10_timeout_error_instance wOpSlow wCfg7 5 rfl
    (fun _ => by
      show (5 : Nat) < 30
      decide)
    rfl rfl

end CatchAsync
